import Mathlib

/-
Verification of `full_simulation.py`: a seeded Mulberry32 pseudo-random
number generator (`SeededRandom`, lines 4-13) driving a bounded
Poisson-disk sampling loop (lines 15-141).

Embedding conventions, justified where they are used:
* Python integers are arbitrary-precision; `x & 0xFFFFFFFF` on a
  nonnegative value is `x % 2^32`, and on an arbitrary integer it is the
  bitwise `and` with the infinite two's-complement representation,
  which `Int.land` implements.
* Every floating-point value the script computes from RNG outputs by
  `int(rng.next() * k)` for `k ∈ {72, 48, len(activeList)}` is exact in
  IEEE-754 binary64: the numerator `out * k` fits in well under 53 bits,
  and division by the power of two `2^32` is exact, so the truncated
  result equals the natural-number division `out * k / 2^32`.
* Comparisons `math.sqrt(d2) < r` with `d2` a nonnegative integer and
  `r` a (small) integer are exact: they hold iff `d2 < r^2`, and the
  correctly-rounded binary64 square root cannot cross the representable
  boundary `r` for the magnitudes occurring here.
* The only genuinely real-valued computation is the candidate
  `(round(px + radius*cos(angle)), round(py + radius*sin(angle)))`
  (lines 102-108).  It is abstracted as a parameter
  `gen : Point → Nat → Nat → Int × Int` mapping the source point and the
  two raw 32-bit RNG draws (angle and radius numerators) to the rounded
  candidate.  All loop-structure and invariant theorems are proved for
  every such `gen`, which covers the concrete floating-point one.
-/

namespace FullSim

/-- One call of `SeededRandom.next` (lines 8-13), on a nonnegative state:
returns the new 32-bit state (line 9-10 store `t` back into `self.seed`)
and the 32-bit output numerator; the returned double is that numerator
divided by `2^32`.  Python groups line 12 as
`(t ^ ((t + product) & 0xFFFFFFFF)) & 0xFFFFFFFF` because `+` and `*`
bind tighter than `&`.  The trailing `>>> 0`-style `>> 0` of line 13 is
the identity on a nonnegative integer. -/
def SeededRandom.next (s : Nat) : Nat × Nat :=
  let t0 := (s + 0x6D2B79F5) &&& 0xFFFFFFFF
  let t1 := ((t0 ^^^ (t0 >>> 15)) * (t0 ||| 1)) &&& 0xFFFFFFFF
  let t2 := (t1 ^^^ ((t1 + ((t1 ^^^ (t1 >>> 7)) * (t1 ||| 61))) &&& 0xFFFFFFFF)) &&& 0xFFFFFFFF
  (t0, (t2 ^^^ (t2 >>> 14)) >>> 0)

/-- The double `next()` returns (line 13), as an exact rational: the
output numerator is below `2^32`, so `numerator / 4294967296` is exactly
representable in binary64 and the Python float division is exact. -/
def SeededRandom.value (s : Nat) : ℚ :=
  (((SeededRandom.next s).2 : ℚ)) / 4294967296

/-- Modelled from the spec wording of §4.1, for comparison with the
code: `s = (s + 0x6D2B79F5) mod 2^32`; `t = s`;
`t = ((t xor (t >> 15)) * (t or 1)) mod 2^32`;
`t = (t xor (t + ((t xor (t >> 7)) * (t or 61)) mod 2^32)) mod 2^32`;
return numerator `((t xor (t >> 14)) mod 2^32)`.  Note the spec reduces
the product before adding `t`, where the code reduces the sum. -/
def specNext (s : Nat) : Nat × Nat :=
  let s1 := (s + 0x6D2B79F5) % 4294967296
  let t1 := ((s1 ^^^ (s1 >>> 15)) * (s1 ||| 1)) % 4294967296
  let t2 := (t1 ^^^ (t1 + (((t1 ^^^ (t1 >>> 7)) * (t1 ||| 61)) % 4294967296))) % 4294967296
  (s1, (t2 ^^^ (t2 >>> 14)) % 4294967296)

/-- The constructor (line 6): `self.seed = seed & 0xFFFFFFFF` on an
arbitrary-precision two's-complement integer. -/
def seedInit (seed : Int) : Nat := (Int.land seed 0xFFFFFFFF).toNat

/-- First `n` output numerators of a `SeededRandom` started at state
`s`, each call advancing the state (line 10). -/
def outputs : Nat → Nat → List Nat
  | _, 0 => []
  | s, n + 1 =>
    let r := SeededRandom.next s
    r.2 :: outputs r.1 n

/-! ### Configuration (lines 15-26)

The constants of the script.  `cellSize = minDistance / sqrt 2` is
irrational; it never appears by itself, only through `int(x / cellSize)`
and the two `ceil` expressions, all of which are integers computed below
exactly. -/

def minDistance : Nat := 5

def maxAttempts : Nat := 50

def gridWidth : Nat := 72

def gridHeight : Nat := 48

/-- Line 22, `gridCols = ceil(gridWidth / cellSize)`:
`72 / (5/√2) = 72·√2/5 ≈ 20.36`, so the ceiling is `21` (exactly:
`100^2 < 2·72^2 < 105^2`).  The binary64 evaluation is far from the
boundary, so it yields the same integer. -/
def gridCols : Nat := 21

/-- Line 23, `gridRows = ceil(gridHeight / cellSize)`:
`48·√2/5 ≈ 13.58`, so the ceiling is `14` (exactly:
`65^2 < 2·48^2 < 70^2`). -/
def gridRows : Nat := 14

/-- A placed point (integer-rounded, in-bounds, so both coordinates are
naturals). -/
structure Point where
  x : Nat
  y : Nat
deriving DecidableEq, Repr

/-- An exclusion zone (line 26): centre and radius. -/
structure Zone where
  x : Nat
  y : Nat
  radius : Nat
deriving DecidableEq, Repr

/-- Line 26: the single configured zone, centre `(36, 24)`, radius 1. -/
def excludedZones : List Zone := [⟨36, 24, 1⟩]

/-- Squared Euclidean distance between two placed points. -/
def d2 (p q : Point) : Int :=
  ((p.x : Int) - (q.x : Int)) ^ 2 + ((p.y : Int) - (q.y : Int)) ^ 2

/-- Squared distance from a point to a zone centre. -/
def zoneD2 (p : Point) (z : Zone) : Int :=
  ((p.x : Int) - (z.x : Int)) ^ 2 + ((p.y : Int) - (z.y : Int)) ^ 2

/-- Lines 31-36: `math.sqrt(d2) < radius` on a nonnegative integer `d2`
and an integer radius holds iff `d2 < radius^2`; the correctly-rounded
binary64 square root of an integer cannot cross the representable
integer boundary `radius` (the gap between `sqrt(radius^2 - 1)` and
`radius` exceeds half an ulp for every radius below `2^26`). -/
def isInExcludedZone (zones : List Zone) (p : Point) : Bool :=
  zones.any fun z => decide (zoneD2 p z < (z.radius : Int) ^ 2)

/-- Lines 65-66, applied to the rounded (hence integer, possibly
negative) candidate before it is known to be in range. -/
def isInBounds (c : Int × Int) : Bool :=
  decide (0 ≤ c.1 ∧ c.1 < (gridWidth : Int) ∧ 0 ≤ c.2 ∧ c.2 < (gridHeight : Int))

/-- Structural integer square root used by `cellIdx`: the largest
`j ≤ fuel` with `j*j ≤ n` (a countdown search, so that the kernel can
evaluate it). -/
def sqrtAux (n : Nat) : Nat → Nat
  | 0 => 0
  | k + 1 => if (k + 1) * (k + 1) ≤ n then k + 1 else sqrtAux n k

/-- The grid index `int(coord / cellSize)` of lines 39-40 and 45-46 on a
nonnegative integer coordinate: `x / (5/√2) = √(2x²)/5`, so the
truncation is `⌊√(2x²)⌋ / 5` (fuel `2x` suffices since `√2·x ≤ 2x`).
For the coordinate range `0 ≤ x < 72` the binary64 evaluation of
`x / cellSize` agrees: `x·√2/5` is never closer than `9·10⁻³` to an
integer there, while the rounding error is below `10⁻¹³`. -/
def cellIdx (x : Nat) : Nat := sqrtAux (2 * x * x) (2 * x) / 5

/-- The spatial grid (line 29): a `gridRows × gridCols` array of
optional points, modelled as a function from `(row, column)` pairs. -/
def Grid : Type := Nat × Nat → Option Point

/-- Line 29: every cell starts empty. -/
def emptyGrid : Grid := fun _ => none

/-- Lines 38-42: write the point at its cell if the cell address is in
range (the `0 ≤` halves of the guard are automatic on naturals). -/
def insertIntoGrid (p : Point) (grid : Grid) : Grid :=
  let gridX := cellIdx p.x
  let gridY := cellIdx p.y
  if gridY < gridRows ∧ gridX < gridCols then
    fun c => if c = (gridY, gridX) then some p else grid c
  else grid

/-- The offsets `-2 .. 2` of the 5×5 search window (lines 48-49). -/
def offsets : List Int := [-2, -1, 0, 1, 2]

/-- Lines 44-63: scan the 5×5 window of cells around the candidate's
cell; report `true` iff some occupied in-range cell holds a point at
distance strictly below `minDistance` (squared: `d2 < 25`, exact for
the same reason as in `isInExcludedZone`). -/
def hasNearbyPoints (grid : Grid) (p : Point) : Bool :=
  let gx : Int := cellIdx p.x
  let gy : Int := cellIdx p.y
  offsets.any fun dy =>
    offsets.any fun dx =>
      let checkX := gx + dx
      let checkY := gy + dy
      if 0 ≤ checkY ∧ checkY < (gridRows : Int) ∧ 0 ≤ checkX ∧ checkX < (gridCols : Int) then
        match grid (checkY.toNat, checkX.toNat) with
        | some q => decide (d2 p q < (minDistance : Int) ^ 2)
        | none => false
      else false

/-! ### Initial point search (lines 68-77) -/

/-- Lines 68-77: up to 1000 attempts, each drawing
`x = int(next()*gridWidth)` then `y = int(next()*gridHeight)` (both
exact, see the header comment) and accepting the first candidate
outside every zone.  Returns the found point (or `none` after
exhausting the budget, in which case line 79 of the script raises a
`TypeError` subscripting `None`), the RNG state after the search, and
the number of attempts consumed. -/
def findInitial (zones : List Zone) : Nat → Nat → Option Point × Nat × Nat
  | rng, 0 => (none, rng, 0)
  | rng, n + 1 =>
    let r1 := SeededRandom.next rng
    let r2 := SeededRandom.next r1.1
    let candidate : Point := ⟨r1.2 * gridWidth / 4294967296, r2.2 * gridHeight / 4294967296⟩
    if isInExcludedZone zones candidate then
      let rest := findInitial zones r2.1 n
      (rest.1, rest.2.1, rest.2.2 + 1)
    else (some candidate, r2.1, 1)

/-! ### The attempt loop (lines 99-127) -/

/-- The rejection-reason counters of line 99. -/
structure Rejections where
  bounds : Nat
  excluded : Nat
  nearby : Nat
deriving DecidableEq, Repr

/-- Abstraction of the only real-valued computation, lines 102-108:
from the selected point and the two raw 32-bit draws (angle and radius
numerators) to the rounded integer candidate
`(round(px + radius·cos angle), round(py + radius·sin angle))`.
Theorems quantify over every such function, which covers the concrete
binary64 one. -/
abbrev Gen : Type := Point → Nat → Nat → Int × Int

/-- Lines 101-127: up to `n` tries; each consumes the angle draw then
the radius draw, forms the candidate, and either rejects it (bumping
exactly one counter, lines 111-119) or accepts it, reporting the
1-based attempt count of line 126.  Returns the accepted point with its
attempt count (or `none`), the RNG state after the loop, and the
counters. -/
def attemptLoop (gen : Gen) (zones : List Zone) (grid : Grid) (point : Point) :
    Nat → Nat → Rejections → Option (Point × Nat) × Nat × Rejections
  | rng, 0, rej => (none, rng, rej)
  | rng, n + 1, rej =>
    let r1 := SeededRandom.next rng
    let r2 := SeededRandom.next r1.1
    let candidate := gen point r1.2 r2.2
    if !isInBounds candidate then
      attemptLoop gen zones grid point r2.1 n { rej with bounds := rej.bounds + 1 }
    else
      let q : Point := ⟨candidate.1.toNat, candidate.2.toNat⟩
      if isInExcludedZone zones q then
        attemptLoop gen zones grid point r2.1 n { rej with excluded := rej.excluded + 1 }
      else if hasNearbyPoints grid q then
        attemptLoop gen zones grid point r2.1 n { rej with nearby := rej.nearby + 1 }
      else (some (q, maxAttempts - n), r2.1, rej)

/-! ### The main loop (lines 86-141) -/

/-- One line of console output, as a structured event; the script's
`print` calls render these injectively, so byte-identical output is
equivalent to equal event lists. -/
inductive TraceLine where
  | initialPt (x y : Nat)
  | blank
  | iterLine (iteration : Nat)
  | sizeLine (activeSize pointCount : Nat)
  | selectedPt (x y : Nat)
  | accepted (x y attempts : Nat)
  | failedAfter (attempts : Nat)
  | rejectionCounts (bounds excluded nearby : Nat)
  | stopping
  | finalCount (n : Nat)
  | finalPoints (pts : List (Nat × Nat))
deriving DecidableEq, Repr

/-- The module-level mutable state of the script. -/
structure SimState where
  points : List Point
  activeList : List Point
  grid : Grid
  rng : Nat
  iteration : Nat
  trace : List TraceLine

/-- Lines 89-137, the body of one `while` iteration:
draw `randomIndex = int(next()*len(activeList))` (exact), select that
point, run the attempt loop; on success append the candidate to
`points` and `activeList` and insert it into the grid (lines 122-124);
on failure pop the selected index (line 132); print the corresponding
trace lines, and line 136's `if iteration > 20` appends the stopping
notice. -/
def iterBody (gen : Gen) (zones : List Zone) (st : SimState) : SimState :=
  let iteration := st.iteration + 1
  let r := SeededRandom.next st.rng
  let randomIndex := r.2 * st.activeList.length / 4294967296
  let point := st.activeList.getD randomIndex ⟨0, 0⟩
  let headerTrace := st.trace ++ [TraceLine.iterLine iteration,
    TraceLine.sizeLine st.activeList.length st.points.length,
    TraceLine.selectedPt point.x point.y]
  let st1 : SimState :=
    match attemptLoop gen zones st.grid point r.1 maxAttempts ⟨0, 0, 0⟩ with
    | (some (c, k), rng2, _) =>
      { points := st.points ++ [c]
        activeList := st.activeList ++ [c]
        grid := insertIntoGrid c st.grid
        rng := rng2
        iteration := iteration
        trace := headerTrace ++ [TraceLine.accepted c.x c.y k, TraceLine.blank] }
    | (none, rng2, rej) =>
      { points := st.points
        activeList := st.activeList.eraseIdx randomIndex
        grid := st.grid
        rng := rng2
        iteration := iteration
        trace := headerTrace ++ [TraceLine.failedAfter maxAttempts,
          TraceLine.rejectionCounts rej.bounds rej.excluded rej.nearby, TraceLine.blank] }
  if iteration > 20 then { st1 with trace := st1.trace ++ [TraceLine.stopping] } else st1

/-- Lines 87-138: the `while` loop.  The head condition is line 88's
`len(activeList) > 0 and len(points) < 15` together with
`iteration ≤ 20`, which encodes the `break` at line 136-138 (the body
that completes iteration 21 appends the stopping notice and no further
iteration starts).  The explicit fuel makes the recursion structural;
the termination theorem proves any fuel above `21 - iteration`
suffices (one unit per body plus one for the final condition check), so
the `none` (fuel-exhausted) branch is unreachable from `run`. -/
def loopSim (gen : Gen) (zones : List Zone) : Nat → SimState → Option SimState
  | 0, _ => none
  | fuel + 1, st =>
    if st.activeList.length > 0 ∧ st.points.length < 15 ∧ st.iteration ≤ 20 then
      loopSim gen zones fuel (iterBody gen zones st)
    else some st

/-- The whole script for a given seed, candidate abstraction and zone
list: lines 68-84 (initial search and seeding of the state, printing
the initial point), the main loop, and the final prints of lines
140-141.  `none` models the reference crash: when the initial search
exhausts its budget, line 79 subscripts `None` and the script dies
before printing anything. -/
def run (gen : Gen) (zones : List Zone) (seed : Int) : Option SimState :=
  match findInitial zones (seedInit seed) 1000 with
  | (none, _, _) => none
  | (some p0, rng0, _) =>
    let st0 : SimState :=
      { points := [p0]
        activeList := [p0]
        grid := insertIntoGrid p0 emptyGrid
        rng := rng0
        iteration := 0
        trace := [TraceLine.initialPt p0.x p0.y, TraceLine.blank] }
    (loopSim gen zones 22 st0).map fun st =>
      { st with trace := st.trace ++ [TraceLine.finalCount st.points.length,
          TraceLine.finalPoints (st.points.map fun p => (p.x, p.y))] }

/-- Two points' grid cells lie within the 5×5 search window of each
other: both cell coordinates differ by at most 2. -/
def windowRel (p q : Point) : Prop :=
  cellIdx p.x ≤ cellIdx q.x + 2 ∧ cellIdx q.x ≤ cellIdx p.x + 2 ∧
  cellIdx p.y ≤ cellIdx q.y + 2 ∧ cellIdx q.y ≤ cellIdx p.y + 2

instance (p q : Point) : Decidable (windowRel p q) := by
  unfold windowRel
  exact inferInstance

/-- The state invariant carried by the main loop, on the parts of the
state it concerns: placed points are in bounds and outside every zone;
the grid holds exactly the placed points, each at its own cell; and
points whose cells fall in each other's 5×5 window are at least
`minDistance` apart. -/
structure Inv (zones : List Zone) (pts : List Point) (grid : Grid) : Prop where
  bounds : ∀ p ∈ pts, p.x < gridWidth ∧ p.y < gridHeight
  zonesOK : ∀ p ∈ pts, ∀ z ∈ zones, (z.radius : Int) ^ 2 ≤ zoneD2 p z
  gridSound : ∀ c r, grid c = some r → r ∈ pts ∧ c = (cellIdx r.y, cellIdx r.x)
  gridComplete : ∀ p ∈ pts, grid (cellIdx p.y, cellIdx p.x) = some p
  pairGood : pts.Pairwise fun p r => windowRel p r → (minDistance : Int) ^ 2 ≤ d2 p r

/-- The invariant needed for the halting-shape statement: point count
capped at 15, iteration counter capped at 21, and the truncation notice
present exactly when 21 iterations have completed. -/
structure LoopInv (st : SimState) : Prop where
  pts_le : st.points.length ≤ 15
  iter_le : st.iteration ≤ 21
  stop_iff : TraceLine.stopping ∈ st.trace ↔ st.iteration = 21

/-! ### A small-step view of the loop, for the determinism claim

The loop body is rendered as an inference system: a `Steps` derivation
is one iteration, an `Exec` derivation a complete execution ending in a
state the `while` head (plus the line 136 break) refuses to continue
from.  Determinism — equal traces and point sequences for any two
executions from the same state — is then a theorem about derivations,
not a definitional triviality. -/

/-- The three trace lines every iteration prints first (lines 94-96). -/
def headerOf (st : SimState) (idx : Nat) : List TraceLine :=
  st.trace ++ [TraceLine.iterLine (st.iteration + 1),
    TraceLine.sizeLine st.activeList.length st.points.length,
    TraceLine.selectedPt (st.activeList.getD idx ⟨0, 0⟩).x (st.activeList.getD idx ⟨0, 0⟩).y]

/-- Line 136-137: append the stopping notice when the just-completed
iteration count exceeds 20. -/
def withStop (st : SimState) : SimState :=
  if st.iteration > 20 then { st with trace := st.trace ++ [TraceLine.stopping] } else st

/-- The state after a successful iteration (lines 121-127). -/
def acceptState (st : SimState) (idx : Nat) (c : Point) (k rng2 : Nat) : SimState :=
  withStop
    { points := st.points ++ [c]
      activeList := st.activeList ++ [c]
      grid := insertIntoGrid c st.grid
      rng := rng2
      iteration := st.iteration + 1
      trace := headerOf st idx ++ [TraceLine.accepted c.x c.y k, TraceLine.blank] }

/-- The state after a failed iteration (lines 129-132). -/
def rejectState (st : SimState) (idx : Nat) (rng2 : Nat) (rej : Rejections) : SimState :=
  withStop
    { points := st.points
      activeList := st.activeList.eraseIdx idx
      grid := st.grid
      rng := rng2
      iteration := st.iteration + 1
      trace := headerOf st idx ++ [TraceLine.failedAfter maxAttempts,
        TraceLine.rejectionCounts rej.bounds rej.excluded rej.nearby, TraceLine.blank] }

/-- One iteration of the main loop as an inference rule: the `while`
condition holds, the index is the scaled draw, and the attempt loop
either accepts or fails. -/
inductive Steps (gen : Gen) (zones : List Zone) : SimState → SimState → Prop where
  | found (st : SimState) (idx : Nat) (c : Point) (k rng2 : Nat) (rej : Rejections)
      (hactive : 0 < st.activeList.length)
      (hpts : st.points.length < 15)
      (hiter : st.iteration ≤ 20)
      (hidx : idx = (SeededRandom.next st.rng).2 * st.activeList.length / 4294967296)
      (hloop : attemptLoop gen zones st.grid (st.activeList.getD idx ⟨0, 0⟩)
        (SeededRandom.next st.rng).1 maxAttempts ⟨0, 0, 0⟩ = (some (c, k), rng2, rej)) :
      Steps gen zones st (acceptState st idx c k rng2)
  | failed (st : SimState) (idx : Nat) (rng2 : Nat) (rej : Rejections)
      (hactive : 0 < st.activeList.length)
      (hpts : st.points.length < 15)
      (hiter : st.iteration ≤ 20)
      (hidx : idx = (SeededRandom.next st.rng).2 * st.activeList.length / 4294967296)
      (hloop : attemptLoop gen zones st.grid (st.activeList.getD idx ⟨0, 0⟩)
        (SeededRandom.next st.rng).1 maxAttempts ⟨0, 0, 0⟩ = (none, rng2, rej)) :
      Steps gen zones st (rejectState st idx rng2 rej)

/-- The `while` head (line 88) together with the line 136 break refuse
to run another iteration. -/
def Finished (st : SimState) : Prop :=
  ¬(0 < st.activeList.length ∧ st.points.length < 15 ∧ st.iteration ≤ 20)

/-- A complete execution of the main loop. -/
inductive Exec (gen : Gen) (zones : List Zone) : SimState → SimState → Prop where
  | done (st : SimState) (h : Finished st) : Exec gen zones st st
  | more (st st2 fin : SimState) (hstep : Steps gen zones st st2)
      (hrest : Exec gen zones st2 fin) : Exec gen zones st fin

/-! ### Concrete candidate generators used for witnesses and the
counterexample -/

/-- Accept one neighbour 5 to the left of the initial point `(70, 14)`
of seed 12345, then only out-of-bounds candidates. -/
def genW : Gen := fun p _ _ => if p = ⟨70, 14⟩ then (65, 14) else (-1, -1)

/-- Step 5 to the left of the selected point. -/
def genC : Gen := fun p _ _ => ((p.x : Int) - 5, (p.y : Int))

/-- Always out of bounds. -/
def genOut : Gen := fun _ _ _ => (-1, -1)

/-- Always the origin. -/
def genZero : Gen := fun _ _ _ => (0, 0)

/-- The state after placing the seed-12345 initial point `(70, 14)`,
with an empty trace, used to exhibit one concrete loop step. -/
def stW : SimState :=
  ⟨[⟨70, 14⟩], [⟨70, 14⟩], insertIntoGrid ⟨70, 14⟩ emptyGrid, 3663143971, 0, []⟩

/-- An already-final state: empty active pool. -/
def stIdle : SimState := ⟨[], [], emptyGrid, 0, 0, []⟩

/-! ### Arithmetic facts about the 32-bit mask -/

theorem and_mask_eq_mod (n : Nat) : n &&& 0xFFFFFFFF = n % 4294967296 := by
  have h1 : (0xFFFFFFFF : Nat) = 2 ^ 32 - 1 := by norm_num
  have h2 : (4294967296 : Nat) = 2 ^ 32 := by norm_num
  rw [h1, h2]
  apply Nat.eq_of_testBit_eq
  intro i
  rw [Nat.testBit_land, Nat.testBit_two_pow_sub_one, Nat.testBit_mod_two_pow,
    Bool.and_comm]

theorem xor_mod_32 (t a : Nat) :
    (t ^^^ a) % 4294967296 = (t ^^^ a % 4294967296) % 4294967296 := by
  have h2 : (4294967296 : Nat) = 2 ^ 32 := by norm_num
  rw [h2]
  apply Nat.eq_of_testBit_eq
  intro i
  rw [Nat.testBit_mod_two_pow, Nat.testBit_mod_two_pow, Nat.testBit_xor, Nat.testBit_xor,
    Nat.testBit_mod_two_pow]
  rcases Nat.lt_or_ge i 32 with h | h
  · simp [h]
  · have h32 : ¬ i < 32 := Nat.not_lt.2 h
    simp [h32]

theorem mod_32_lt (n : Nat) : n % 4294967296 < 4294967296 :=
  Nat.mod_lt _ (by norm_num)

theorem xor_32_lt {a b : Nat} (ha : a < 4294967296) (hb : b < 4294967296) :
    a ^^^ b < 4294967296 := by
  have h2 : (4294967296 : Nat) = 2 ^ 32 := by norm_num
  rw [h2] at *
  exact Nat.xor_lt_two_pow ha hb

theorem shiftRight_32_lt {a : Nat} (ha : a < 4294967296) (k : Nat) :
    a >>> k < 4294967296 :=
  lt_of_le_of_lt (by rw [Nat.shiftRight_eq_div_pow]; exact Nat.div_le_self _ _) ha

/-- The lines 12-13 scrambling with the code's grouping (the outer mask
applied to the sum `t + product`) agrees with the spec's grouping (the
mask applied to the product alone): bits above position 31 are killed by
the outer reduction either way. -/
theorem scramble_eq (t1 : Nat) :
    ((t1 ^^^ ((t1 + ((t1 ^^^ (t1 >>> 7)) * (t1 ||| 61))) % 4294967296)) % 4294967296) ^^^
      (((t1 ^^^ ((t1 + ((t1 ^^^ (t1 >>> 7)) * (t1 ||| 61))) % 4294967296)) % 4294967296) >>> 14)
    = (((t1 ^^^ (t1 + (((t1 ^^^ (t1 >>> 7)) * (t1 ||| 61)) % 4294967296))) % 4294967296) ^^^
        ((((t1 ^^^ (t1 + (((t1 ^^^ (t1 >>> 7)) * (t1 ||| 61)) % 4294967296))) % 4294967296)) >>> 14)) %
        4294967296 := by
  have hm : (t1 + ((t1 ^^^ (t1 >>> 7)) * (t1 ||| 61))) % 4294967296
      = (t1 + (((t1 ^^^ (t1 >>> 7)) * (t1 ||| 61)) % 4294967296)) % 4294967296 := by
    omega
  have ht2 : (t1 ^^^ ((t1 + ((t1 ^^^ (t1 >>> 7)) * (t1 ||| 61))) % 4294967296)) % 4294967296
      = (t1 ^^^ (t1 + (((t1 ^^^ (t1 >>> 7)) * (t1 ||| 61)) % 4294967296))) % 4294967296 := by
    rw [xor_mod_32 t1 (t1 + (((t1 ^^^ (t1 >>> 7)) * (t1 ||| 61)) % 4294967296)), ← hm]
  rw [ht2]
  exact (Nat.mod_eq_of_lt (xor_32_lt (mod_32_lt _) (shiftRight_32_lt (mod_32_lt _) 14))).symm

/-- C1: for every state and every call, `SeededRandom.next` computes
exactly the Mulberry32 step the specification states: the new state is
`(s + 0x6D2B79F5) mod 2^32`, the output numerator agrees with the
spec-worded scrambling chain, and the returned double lies in `[0, 1)`. -/
theorem c1_next_matches_spec (s : Nat) :
    SeededRandom.next s = specNext s ∧
    (SeededRandom.next s).1 = (s + 0x6D2B79F5) % 4294967296 ∧
    0 ≤ SeededRandom.value s ∧ SeededRandom.value s < 1 := by
  have hval : (SeededRandom.next s).2 < 4294967296 := by
    unfold SeededRandom.next
    simp only [and_mask_eq_mod, Nat.shiftRight_zero]
    exact xor_32_lt (mod_32_lt _) (shiftRight_32_lt (mod_32_lt _) _)
  refine ⟨?_, ?_, ?_, ?_⟩
  · unfold SeededRandom.next specNext
    simp only [and_mask_eq_mod, Nat.shiftRight_zero, Prod.mk.injEq]
    exact ⟨trivial, scramble_eq _⟩
  · unfold SeededRandom.next
    simp [and_mask_eq_mod]
  · unfold SeededRandom.value
    positivity
  · unfold SeededRandom.value
    rw [div_lt_one (by norm_num)]
    exact_mod_cast hval

/-! ### The constructor mask on arbitrary integers -/

theorem ldiff_mask (m : Nat) :
    Nat.ldiff 4294967295 m = 4294967295 - m % 4294967296 := by
  have h1 : (4294967295 : Nat) = 2 ^ 32 - 1 := by norm_num
  have h2 : (4294967296 : Nat) = 2 ^ 32 := by norm_num
  rw [h1, h2]
  have hlt : m % 2 ^ 32 < 2 ^ 32 := Nat.mod_lt _ (by norm_num)
  have hsub : 2 ^ 32 - 1 - m % 2 ^ 32 = 2 ^ 32 - (m % 2 ^ 32 + 1) := by omega
  rw [hsub]
  apply Nat.eq_of_testBit_eq
  intro i
  rw [Nat.testBit_ldiff, Nat.testBit_two_pow_sub_one,
    Nat.testBit_two_pow_sub_succ hlt, Nat.testBit_mod_two_pow]
  rcases Nat.lt_or_ge i 32 with h | h
  · simp [h]
  · simp [Nat.not_lt.2 h]

theorem land_mask (s : Int) : Int.land s 0xFFFFFFFF = s % 4294967296 := by
  cases s with
  | ofNat n =>
    show ((n &&& 0xFFFFFFFF : Nat) : Int) = (n : Int) % 4294967296
    rw [and_mask_eq_mod]
    omega
  | negSucc m =>
    show ((Nat.ldiff 4294967295 m : Nat) : Int) = Int.negSucc m % 4294967296
    rw [ldiff_mask, Int.negSucc_eq]
    omega

/-- C10: the constructor reduces any integer seed modulo `2^32`
(line 6), so a seed and its residue, and any two seeds congruent
modulo `2^32`, construct generators with identical output sequences. -/
theorem c10_seed_mod_congruence :
    (∀ s : Int, ∀ n : Nat, outputs (seedInit s) n = outputs (seedInit (s % 4294967296)) n) ∧
    (∀ s t : Int, s % 4294967296 = t % 4294967296 →
      ∀ n : Nat, outputs (seedInit s) n = outputs (seedInit t) n) := by
  have hinit : ∀ s t : Int, s % 4294967296 = t % 4294967296 → seedInit s = seedInit t := by
    intro s t h
    unfold seedInit
    rw [land_mask, land_mask, h]
  constructor
  · intro s n
    have : s % 4294967296 = s % 4294967296 % 4294967296 :=
      (Int.emod_emod_of_dvd s dvd_rfl).symm
    rw [hinit s (s % 4294967296) this]
  · intro s t h n
    rw [hinit s t h]

/-- Witness for C10 at concrete congruent seeds `-5` and
`2 * 2^32 - 5`. -/
theorem c10_seed_mod_congruence_witness :
    (-5 : Int) % 4294967296 = (8589934587 : Int) % 4294967296 ∧
    outputs (seedInit (-5)) 3 = outputs (seedInit 8589934587) 3 :=
  ⟨by decide, c10_seed_mod_congruence.2 (-5) 8589934587 (by decide) 3⟩

/-! ### Basic bounds -/

theorem next_snd_lt (s : Nat) : (SeededRandom.next s).2 < 4294967296 := by
  unfold SeededRandom.next
  simp only [and_mask_eq_mod, Nat.shiftRight_zero]
  exact xor_32_lt (mod_32_lt _) (shiftRight_32_lt (mod_32_lt _) _)

/-- The scaled draw `int(next() * k)` is a valid index/coordinate below
`k` whenever `k` is positive. -/
theorem scaled_draw_lt {o k : Nat} (ho : o < 4294967296) (hk : 0 < k) :
    o * k / 4294967296 < k := by
  rw [Nat.div_lt_iff_lt_mul (by norm_num)]
  calc o * k < 4294967296 * k := by
        exact Nat.mul_lt_mul_of_lt_of_le ho (Nat.le_refl k) hk
  _ = k * 4294967296 := Nat.mul_comm _ _

/-! ### The integer square root and the cell index -/

theorem sqrtAux_sq_le (n : Nat) : ∀ k, sqrtAux n k * sqrtAux n k ≤ n
  | 0 => by simp [sqrtAux]
  | k + 1 => by
    unfold sqrtAux
    by_cases h : (k + 1) * (k + 1) ≤ n
    · rw [if_pos h]; exact h
    · rw [if_neg h]; exact sqrtAux_sq_le n k

theorem le_sqrtAux (n : Nat) : ∀ k j, j ≤ k → j * j ≤ n → j ≤ sqrtAux n k
  | 0, j, hj, _ => by simpa [sqrtAux] using hj
  | k + 1, j, hj, hsq => by
    unfold sqrtAux
    by_cases h : (k + 1) * (k + 1) ≤ n
    · rw [if_pos h]; exact hj
    · rw [if_neg h]
      rcases Nat.eq_or_lt_of_le hj with he | hlt
      · exact absurd (he ▸ hsq) h
      · exact le_sqrtAux n k j (by omega) hsq

/-- Squares are monotone reflected on naturals. -/
theorem le_of_sq_le_sq {a b : Nat} (h : a * a ≤ b * b) : a ≤ b := by
  by_contra hc
  push_neg at hc
  have h1 : (b + 1) * (b + 1) ≤ a * a := Nat.mul_le_mul hc hc
  nlinarith

theorem sq_le_twice_sq_bound {j x : Nat} (h : j * j ≤ 2 * x * x) : j ≤ 2 * x := by
  apply le_of_sq_le_sq
  have : 2 * x * x ≤ (2 * x) * (2 * x) := by nlinarith
  omega

/-- The un-divided cell coordinate `⌊x·√2⌋`. -/
theorem cellSqrt_le (x : Nat) : sqrtAux (2 * x * x) (2 * x) ≤ 2 * x :=
  sq_le_twice_sq_bound (sqrtAux_sq_le _ _)

theorem cellSqrt_mono {a b : Nat} (h : a ≤ b) :
    sqrtAux (2 * a * a) (2 * a) ≤ sqrtAux (2 * b * b) (2 * b) := by
  apply le_sqrtAux
  · calc sqrtAux (2 * a * a) (2 * a) ≤ 2 * a := cellSqrt_le a
    _ ≤ 2 * b := by omega
  · calc sqrtAux (2 * a * a) (2 * a) * sqrtAux (2 * a * a) (2 * a) ≤ 2 * a * a :=
      sqrtAux_sq_le _ _
    _ ≤ 2 * b * b := by nlinarith

theorem cellIdx_mono {a b : Nat} (h : a ≤ b) : cellIdx a ≤ cellIdx b :=
  Nat.div_le_div_right (cellSqrt_mono h)

/-- Four units of coordinate distance always cross a cell boundary:
`4·√2/5 > 1`. -/
theorem cellIdx_gap (x : Nat) : cellIdx x + 1 ≤ cellIdx (x + 4) := by
  unfold cellIdx
  have hs := sqrtAux_sq_le (2 * x * x) (2 * x)
  have hle := cellSqrt_le x
  set s := sqrtAux (2 * x * x) (2 * x) with hsdef
  have h2s : 2 * s ≤ 3 * x := by
    apply le_of_sq_le_sq
    nlinarith
  have hstep : s + 5 ≤ sqrtAux (2 * (x + 4) * (x + 4)) (2 * (x + 4)) := by
    apply le_sqrtAux
    · omega
    · nlinarith
  calc s / 5 + 1 = (s + 5) / 5 := (Nat.add_div_right s (by norm_num)).symm
  _ ≤ sqrtAux (2 * (x + 4) * (x + 4)) (2 * (x + 4)) / 5 := Nat.div_le_div_right hstep

/-- Coordinates in the same cell differ by at most 3. -/
theorem cellIdx_same_close {a b : Nat} (h : cellIdx a = cellIdx b) :
    a ≤ b + 3 ∧ b ≤ a + 3 := by
  constructor
  · by_contra hc
    push_neg at hc
    have h4 : b + 4 ≤ a := by omega
    have := calc cellIdx b + 1 ≤ cellIdx (b + 4) := cellIdx_gap b
      _ ≤ cellIdx a := cellIdx_mono h4
    omega
  · by_contra hc
    push_neg at hc
    have h4 : a + 4 ≤ b := by omega
    have := calc cellIdx a + 1 ≤ cellIdx (a + 4) := cellIdx_gap a
      _ ≤ cellIdx b := cellIdx_mono h4
    omega

theorem cellIdx_71 : cellIdx 71 = 20 := by decide

theorem cellIdx_47 : cellIdx 47 = 13 := by decide

theorem cellIdx_col_lt {x : Nat} (hx : x < gridWidth) : cellIdx x < gridCols := by
  have h1 : cellIdx x ≤ cellIdx 71 := cellIdx_mono (by unfold gridWidth at hx; omega)
  rw [cellIdx_71] at h1
  unfold gridCols
  omega

theorem cellIdx_row_lt {y : Nat} (hy : y < gridHeight) : cellIdx y < gridRows := by
  have h1 : cellIdx y ≤ cellIdx 47 := cellIdx_mono (by unfold gridHeight at hy; omega)
  rw [cellIdx_47] at h1
  unfold gridRows
  omega

/-- Two distinct points sharing a grid cell would be closer than
`minDistance`: same cell means both coordinates differ by at most 3, so
the squared distance is at most 18 < 25. -/
theorem same_cell_close {p q : Point} (hx : cellIdx p.x = cellIdx q.x)
    (hy : cellIdx p.y = cellIdx q.y) : d2 p q < (minDistance : Int) ^ 2 := by
  obtain ⟨hx1, hx2⟩ := cellIdx_same_close hx
  obtain ⟨hy1, hy2⟩ := cellIdx_same_close hy
  unfold d2 minDistance
  have hxa : ((p.x : Int) - (q.x : Int)) ^ 2 ≤ 3 ^ 2 := by
    apply sq_le_sq' <;> [omega; omega]
  have hya : ((p.y : Int) - (q.y : Int)) ^ 2 ≤ 3 ^ 2 := by
    apply sq_le_sq' <;> [omega; omega]
  push_cast
  nlinarith

/-! ### What acceptance and failure of the attempt loop guarantee -/

/-- An accepted candidate passed all three checks of lines 111-119. -/
theorem attemptLoop_success (gen : Gen) (zones : List Zone) (grid : Grid) (point : Point)
    (n : Nat) :
    ∀ rng rej q k rng2 rej2,
      attemptLoop gen zones grid point rng n rej = (some (q, k), rng2, rej2) →
      q.x < gridWidth ∧ q.y < gridHeight ∧
      isInExcludedZone zones q = false ∧ hasNearbyPoints grid q = false := by
  induction n with
  | zero =>
    intro rng rej q k rng2 rej2 h
    simp [attemptLoop] at h
  | succ n ih =>
    intro rng rej q k rng2 rej2 h
    unfold attemptLoop at h
    set c := gen point (SeededRandom.next rng).2
      (SeededRandom.next (SeededRandom.next rng).1).2 with hc
    by_cases hb : isInBounds c
    · rw [if_neg (by simp [hb])] at h
      by_cases hz : isInExcludedZone zones ⟨c.1.toNat, c.2.toNat⟩
      · rw [if_pos hz] at h
        exact ih _ _ q k rng2 rej2 h
      · rw [if_neg hz] at h
        by_cases hn : hasNearbyPoints grid ⟨c.1.toNat, c.2.toNat⟩
        · rw [if_pos hn] at h
          exact ih _ _ q k rng2 rej2 h
        · rw [if_neg hn] at h
          simp only [Prod.mk.injEq, Option.some.injEq] at h
          obtain ⟨⟨hq, -⟩, -, -⟩ := h
          subst hq
          unfold isInBounds at hb
          simp only [decide_eq_true_eq] at hb
          obtain ⟨hb1, hb2, hb3, hb4⟩ := hb
          refine ⟨?_, ?_, ?_, ?_⟩
          · exact (Int.toNat_lt hb1).mpr hb2
          · exact (Int.toNat_lt hb3).mpr hb4
          · simpa using hz
          · simpa using hn
    · rw [if_pos (by simp [hb])] at h
      exact ih _ _ q k rng2 rej2 h

/-- C8 core: when no candidate is accepted, each of the `n` tries bumps
exactly one of the three counters. -/
theorem attemptLoop_counts (gen : Gen) (zones : List Zone) (grid : Grid) (point : Point)
    (n : Nat) :
    ∀ rng rej rng2 rej2,
      attemptLoop gen zones grid point rng n rej = (none, rng2, rej2) →
      rej2.bounds + rej2.excluded + rej2.nearby
        = rej.bounds + rej.excluded + rej.nearby + n := by
  induction n with
  | zero =>
    intro rng rej rng2 rej2 h
    simp only [attemptLoop, Prod.mk.injEq] at h
    obtain ⟨-, -, h3⟩ := h
    rw [← h3]
    omega
  | succ n ih =>
    intro rng rej rng2 rej2 h
    unfold attemptLoop at h
    set c := gen point (SeededRandom.next rng).2
      (SeededRandom.next (SeededRandom.next rng).1).2 with hc
    by_cases hb : isInBounds c
    · rw [if_neg (by simp [hb])] at h
      by_cases hz : isInExcludedZone zones ⟨c.1.toNat, c.2.toNat⟩
      · rw [if_pos hz] at h
        have := ih _ _ rng2 rej2 h
        simp only at this
        omega
      · rw [if_neg hz] at h
        by_cases hn : hasNearbyPoints grid ⟨c.1.toNat, c.2.toNat⟩
        · rw [if_pos hn] at h
          have := ih _ _ rng2 rej2 h
          simp only at this
          omega
        · rw [if_neg hn] at h
          simp at h
    · rw [if_pos (by simp [hb])] at h
      have := ih _ _ rng2 rej2 h
      simp only at this
      omega

/-- The initial point (lines 68-77) is in bounds — the scaled draws are
below the dimensions — and outside every zone. -/
theorem findInitial_success (zones : List Zone) (n : Nat) :
    ∀ rng p rng2 k, findInitial zones rng n = (some p, rng2, k) →
      p.x < gridWidth ∧ p.y < gridHeight ∧ isInExcludedZone zones p = false := by
  induction n with
  | zero =>
    intro rng p rng2 k h
    simp [findInitial] at h
  | succ n ih =>
    intro rng p rng2 k h
    unfold findInitial at h
    by_cases hz : isInExcludedZone zones
        (⟨(SeededRandom.next rng).2 * gridWidth / 4294967296,
          (SeededRandom.next (SeededRandom.next rng).1).2 * gridHeight / 4294967296⟩ : Point)
    · rw [if_pos hz] at h
      rcases hfi : findInitial zones (SeededRandom.next (SeededRandom.next rng).1).1 n
        with ⟨res, rr, kk⟩
      rw [hfi] at h
      simp only [Prod.mk.injEq] at h
      obtain ⟨h1, -, -⟩ := h
      subst h1
      exact ih _ p rr kk hfi
    · rw [if_neg hz] at h
      simp only [Prod.mk.injEq, Option.some.injEq] at h
      obtain ⟨h1, -, -⟩ := h
      subst h1
      refine ⟨scaled_draw_lt (next_snd_lt _) (by norm_num [gridWidth]),
        scaled_draw_lt (next_snd_lt _) (by norm_num [gridHeight]), by simpa using hz⟩

/-! ### The 5×5 window and the grid invariant -/

theorem d2_symm (p q : Point) : d2 p q = d2 q p := by
  unfold d2
  ring

theorem mem_offsets {d : Int} (h1 : -2 ≤ d) (h2 : d ≤ 2) : d ∈ offsets := by
  unfold offsets
  have h : d = -2 ∨ d = -1 ∨ d = 0 ∨ d = 1 ∨ d = 2 := by omega
  rcases h with h | h | h | h | h <;> simp [h]

/-- When the 5×5 scan around `q` reports no conflict, every point
occupying an in-range grid cell within the window is at squared
distance at least `minDistance^2` from `q`. -/
theorem hasNearby_false_spec {grid : Grid} {q p : Point} {cy cx : Nat}
    (h : hasNearbyPoints grid q = false)
    (hcell : grid (cy, cx) = some p)
    (hrow1 : cy ≤ cellIdx q.y + 2) (hrow2 : cellIdx q.y ≤ cy + 2)
    (hcol1 : cx ≤ cellIdx q.x + 2) (hcol2 : cellIdx q.x ≤ cx + 2)
    (hcyR : cy < gridRows) (hcxR : cx < gridCols) :
    (minDistance : Int) ^ 2 ≤ d2 q p := by
  unfold hasNearbyPoints at h
  rw [List.any_eq_false] at h
  have hdymem : ((cy : Int) - (cellIdx q.y : Int)) ∈ offsets :=
    mem_offsets (by omega) (by omega)
  have hdxmem : ((cx : Int) - (cellIdx q.x : Int)) ∈ offsets :=
    mem_offsets (by omega) (by omega)
  have h1 := h _ hdymem
  rw [Bool.not_eq_true, List.any_eq_false] at h1
  have h2 := h1 _ hdxmem
  have hcy' : (cellIdx q.y : Int) + ((cy : Int) - (cellIdx q.y : Int)) = (cy : Int) := by ring
  have hcx' : (cellIdx q.x : Int) + ((cx : Int) - (cellIdx q.x : Int)) = (cx : Int) := by ring
  simp only [hcy', hcx'] at h2
  rw [if_pos ⟨by omega, by exact_mod_cast hcyR, by omega, by exact_mod_cast hcxR⟩] at h2
  simp only [Int.toNat_natCast] at h2
  rw [hcell] at h2
  simp only [decide_eq_true_eq] at h2
  omega

/-- A zone scan reporting no hit means every zone is at distance at
least its radius. -/
theorem not_in_zone_spec {zones : List Zone} {p : Point}
    (h : isInExcludedZone zones p = false) :
    ∀ z ∈ zones, (z.radius : Int) ^ 2 ≤ zoneD2 p z := by
  unfold isInExcludedZone at h
  rw [List.any_eq_false] at h
  intro z hz
  have h1 := h z hz
  simp only [decide_eq_true_eq] at h1
  omega

theorem insertIntoGrid_in_range {p : Point} (hx : p.x < gridWidth) (hy : p.y < gridHeight)
    (grid : Grid) :
    insertIntoGrid p grid
      = fun c => if c = (cellIdx p.y, cellIdx p.x) then some p else grid c := by
  unfold insertIntoGrid
  rw [if_pos ⟨cellIdx_row_lt hy, cellIdx_col_lt hx⟩]

/-- Accepting a candidate that passed the three checks preserves the
invariant.  The candidate's own cell is necessarily empty (an occupant
would share its cell, hence be both nearer than `minDistance` and —
being in the window — at least `minDistance` away), so the write never
overwrites a live point. -/
theorem inv_insert {zones : List Zone} {pts : List Point} {grid : Grid}
    (inv : Inv zones pts grid) {q : Point}
    (hqx : q.x < gridWidth) (hqy : q.y < gridHeight)
    (hqz : isInExcludedZone zones q = false)
    (hqn : hasNearbyPoints grid q = false) :
    Inv zones (pts ++ [q]) (insertIntoGrid q grid) := by
  have hgq : ∀ p ∈ pts, windowRel p q → (minDistance : Int) ^ 2 ≤ d2 p q := by
    intro p hp hw
    obtain ⟨hpx, hpy⟩ := inv.bounds p hp
    have hcell := inv.gridComplete p hp
    have h25 := hasNearby_false_spec hqn hcell hw.2.2.1 hw.2.2.2 hw.1 hw.2.1
      (cellIdx_row_lt hpy) (cellIdx_col_lt hpx)
    rw [d2_symm q p] at h25
    exact h25
  have hempty : grid (cellIdx q.y, cellIdx q.x) = none := by
    cases hg : grid (cellIdx q.y, cellIdx q.x) with
    | none => rfl
    | some r =>
      obtain ⟨hrmem, hrc⟩ := inv.gridSound _ r hg
      have hy' : cellIdx q.y = cellIdx r.y := congrArg Prod.fst hrc
      have hx' : cellIdx q.x = cellIdx r.x := congrArg Prod.snd hrc
      have hclose := same_cell_close (p := q) (q := r) hx' hy'
      have hw : windowRel r q := by unfold windowRel; omega
      have hfar := hgq r hrmem hw
      rw [d2_symm r q] at hfar
      omega
  rw [insertIntoGrid_in_range hqx hqy]
  refine ⟨?_, ?_, ?_, ?_, ?_⟩
  · intro p hp
    rcases List.mem_append.1 hp with hp | hp
    · exact inv.bounds p hp
    · rw [List.mem_singleton.1 hp]
      exact ⟨hqx, hqy⟩
  · intro p hp
    rcases List.mem_append.1 hp with hp | hp
    · exact inv.zonesOK p hp
    · rw [List.mem_singleton.1 hp]
      exact not_in_zone_spec hqz
  · intro c r hc
    by_cases he : c = (cellIdx q.y, cellIdx q.x)
    · rw [if_pos he] at hc
      injection hc with hc
      subst hc
      exact ⟨List.mem_append.2 (Or.inr (List.mem_singleton.2 rfl)), he⟩
    · rw [if_neg he] at hc
      obtain ⟨hmem, hcc⟩ := inv.gridSound c r hc
      exact ⟨List.mem_append.2 (Or.inl hmem), hcc⟩
  · intro p hp
    rcases List.mem_append.1 hp with hp | hp
    · have hne : (cellIdx p.y, cellIdx p.x) ≠ (cellIdx q.y, cellIdx q.x) := by
        intro he
        have := inv.gridComplete p hp
        rw [he, hempty] at this
        exact Option.noConfusion this
      rw [if_neg hne]
      exact inv.gridComplete p hp
    · rw [List.mem_singleton.1 hp, if_pos rfl]
  · rw [List.pairwise_append]
    refine ⟨inv.pairGood, List.pairwise_singleton _ _, ?_⟩
    intro p hp b hb
    rw [List.mem_singleton.1 hb]
    exact hgq p hp

/-! ### Shape of one loop iteration -/

/-- One iteration increments the counter, appends at most one point,
and appends the stopping notice exactly when the new count exceeds
20. -/
theorem iterBody_shape (gen : Gen) (zones : List Zone) (st : SimState) :
    (iterBody gen zones st).iteration = st.iteration + 1 ∧
    st.points.length ≤ (iterBody gen zones st).points.length ∧
    (iterBody gen zones st).points.length ≤ st.points.length + 1 ∧
    (TraceLine.stopping ∈ (iterBody gen zones st).trace ↔
      TraceLine.stopping ∈ st.trace ∨ 20 < st.iteration + 1) := by
  rcases hal : attemptLoop gen zones st.grid
      (st.activeList.getD ((SeededRandom.next st.rng).2 * st.activeList.length / 4294967296)
        ⟨0, 0⟩)
      (SeededRandom.next st.rng).1 maxAttempts ⟨0, 0, 0⟩ with ⟨res, rng2, rej⟩
  cases res with
  | some pr =>
    rcases pr with ⟨c, k⟩
    simp only [iterBody, hal]
    split
    · next h =>
      refine ⟨rfl, by simp, by simp, ?_⟩
      simp [List.mem_append, h]
    · next h =>
      refine ⟨rfl, by simp, by simp, ?_⟩
      simp [List.mem_append, h]
  | none =>
    simp only [iterBody, hal]
    split
    · next h =>
      refine ⟨rfl, by simp, by simp, ?_⟩
      simp [List.mem_append, h]
    · next h =>
      refine ⟨rfl, by simp, by simp, ?_⟩
      simp [List.mem_append, h]

/-- One iteration either accepts a candidate that passed all checks
(appending it and inserting it into the grid) or leaves points and grid
untouched. -/
theorem iterBody_points_grid (gen : Gen) (zones : List Zone) (st : SimState) :
    (∃ q, (iterBody gen zones st).points = st.points ++ [q] ∧
        (iterBody gen zones st).grid = insertIntoGrid q st.grid ∧
        q.x < gridWidth ∧ q.y < gridHeight ∧
        isInExcludedZone zones q = false ∧ hasNearbyPoints st.grid q = false) ∨
    ((iterBody gen zones st).points = st.points ∧ (iterBody gen zones st).grid = st.grid) := by
  rcases hal : attemptLoop gen zones st.grid
      (st.activeList.getD ((SeededRandom.next st.rng).2 * st.activeList.length / 4294967296)
        ⟨0, 0⟩)
      (SeededRandom.next st.rng).1 maxAttempts ⟨0, 0, 0⟩ with ⟨res, rng2, rej⟩
  cases res with
  | some pr =>
    rcases pr with ⟨c, k⟩
    obtain ⟨hx, hy, hz, hn⟩ := attemptLoop_success gen zones st.grid _ maxAttempts _ _ c k
      rng2 rej hal
    left
    refine ⟨c, ?_, ?_, hx, hy, hz, hn⟩ <;>
      (simp only [iterBody, hal]; split <;> rfl)
  | none =>
    right
    constructor <;> (simp only [iterBody, hal]; split <;> rfl)

theorem iterBody_inv (gen : Gen) (zones : List Zone) (st : SimState)
    (inv : Inv zones st.points st.grid) :
    Inv zones (iterBody gen zones st).points (iterBody gen zones st).grid := by
  rcases iterBody_points_grid gen zones st with ⟨q, hp, hg, h1, h2, h3, h4⟩ | ⟨hp, hg⟩
  · rw [hp, hg]
    exact inv_insert inv h1 h2 h3 h4
  · rw [hp, hg]
    exact inv

/-! ### The loop: invariant preservation, exit conditions, termination -/

theorem loopSim_inv (gen : Gen) (zones : List Zone) (fuel : Nat) :
    ∀ st fin, Inv zones st.points st.grid →
      loopSim gen zones fuel st = some fin → Inv zones fin.points fin.grid := by
  induction fuel with
  | zero =>
    intro st fin _ h
    simp [loopSim] at h
  | succ fuel ih =>
    intro st fin inv h
    unfold loopSim at h
    by_cases hc : st.activeList.length > 0 ∧ st.points.length < 15 ∧ st.iteration ≤ 20
    · rw [if_pos hc] at h
      exact ih _ fin (iterBody_inv gen zones st inv) h
    · rw [if_neg hc] at h
      injection h with h
      subst h
      exact inv

theorem iterBody_loopInv (gen : Gen) (zones : List Zone) (st : SimState) (h : LoopInv st)
    (hc : st.activeList.length > 0 ∧ st.points.length < 15 ∧ st.iteration ≤ 20) :
    LoopInv (iterBody gen zones st) := by
  obtain ⟨h1, h2, h3, h4⟩ := iterBody_shape gen zones st
  have hnot : TraceLine.stopping ∉ st.trace := by
    intro hs
    have := h.stop_iff.1 hs
    omega
  refine ⟨?_, ?_, ?_⟩
  · have := hc.2.1
    omega
  · have := hc.2.2
    omega
  · rw [h4, h1]
    constructor
    · rintro (hs | hgt)
      · exact absurd hs hnot
      · omega
    · intro he
      exact Or.inr (by omega)

theorem loopSim_final (gen : Gen) (zones : List Zone) (fuel : Nat) :
    ∀ st fin, LoopInv st → loopSim gen zones fuel st = some fin →
      LoopInv fin ∧ (fin.activeList = [] ∨ fin.points.length = 15 ∨ fin.iteration = 21) := by
  induction fuel with
  | zero =>
    intro st fin _ h
    simp [loopSim] at h
  | succ fuel ih =>
    intro st fin hinv h
    unfold loopSim at h
    by_cases hc : st.activeList.length > 0 ∧ st.points.length < 15 ∧ st.iteration ≤ 20
    · rw [if_pos hc] at h
      exact ih _ fin (iterBody_loopInv gen zones st hinv hc) h
    · rw [if_neg hc] at h
      injection h with h
      subst h
      refine ⟨hinv, ?_⟩
      rcases Nat.eq_zero_or_pos st.activeList.length with hz | hpos
      · exact Or.inl (List.length_eq_zero.1 hz)
      rcases Nat.lt_or_ge st.points.length 15 with hlt | hge
      · have hi : ¬ st.iteration ≤ 20 := fun hI => hc ⟨hpos, hlt, hI⟩
        have := hinv.iter_le
        exact Or.inr (Or.inr (by omega))
      · have := hinv.pts_le
        exact Or.inr (Or.inl (by omega))

/-- C9: the main loop always terminates — any fuel strictly above
`21 - iteration` yields a result (never the fuel-exhausted marker), the
result is independent of the fuel, and the completed iteration count
never exceeds 21: the `iteration > 20` break bounds the loop
absolutely, for every candidate generator, zone list and state. -/
theorem c9_loop_terminates (gen : Gen) (zones : List Zone) :
    ∀ fuel st, 21 - st.iteration < fuel →
      (∃ fin, loopSim gen zones fuel st = some fin ∧
        fin.iteration ≤ max st.iteration 21) ∧
      (∀ fuel2, 21 - st.iteration < fuel2 →
        loopSim gen zones fuel2 st = loopSim gen zones fuel st) := by
  intro fuel
  induction fuel with
  | zero =>
    intro st h
    omega
  | succ fuel ih =>
    intro st hf
    have hiter := (iterBody_shape gen zones st).1
    by_cases hc : st.activeList.length > 0 ∧ st.points.length < 15 ∧ st.iteration ≤ 20
    · have h20 := hc.2.2
      have hb : 21 - (iterBody gen zones st).iteration < fuel := by
        rw [hiter]
        omega
      obtain ⟨⟨fin, hfin, hle⟩, hirr⟩ := ih (iterBody gen zones st) hb
      constructor
      · refine ⟨fin, ?_, ?_⟩
        · unfold loopSim
          rw [if_pos hc]
          exact hfin
        · rw [hiter] at hle
          omega
      · intro fuel2 h2
        cases fuel2 with
        | zero => omega
        | succ fuel2 =>
          show loopSim gen zones (fuel2 + 1) st = loopSim gen zones (fuel + 1) st
          unfold loopSim
          rw [if_pos hc, if_pos hc]
          rw [hirr fuel2 (by rw [hiter]; omega)]
    · constructor
      · refine ⟨st, ?_, ?_⟩
        · unfold loopSim
          rw [if_neg hc]
        · omega
      · intro fuel2 h2
        cases fuel2 with
        | zero => omega
        | succ fuel2 =>
          show loopSim gen zones (fuel2 + 1) st = loopSim gen zones (fuel + 1) st
          unfold loopSim
          rw [if_neg hc, if_neg hc]

theorem windowRel_symm {p q : Point} (h : windowRel p q) : windowRel q p := by
  unfold windowRel at *
  omega

/-! ### Everything a completed run guarantees -/

theorem run_shape (gen : Gen) (zones : List Zone) (seed : Int) (st : SimState)
    (h : run gen zones seed = some st) :
    (st.activeList = [] ∨ st.points.length = 15 ∨ st.iteration = 21) ∧
    st.iteration ≤ 21 ∧ st.points.length ≤ 15 ∧
    (TraceLine.stopping ∈ st.trace ↔ st.iteration = 21) ∧
    Inv zones st.points st.grid := by
  unfold run at h
  rcases hfi : findInitial zones (seedInit seed) 1000 with ⟨res, rng0, k⟩
  rw [hfi] at h
  cases res with
  | none => simp at h
  | some p0 =>
    simp only [Option.map_eq_some'] at h
    obtain ⟨fin, hloop, hst⟩ := h
    obtain ⟨hpx, hpy, hpz⟩ := findInitial_success zones 1000 _ p0 rng0 k hfi
    have hInv0 : Inv zones [p0] (insertIntoGrid p0 emptyGrid) := by
      rw [insertIntoGrid_in_range hpx hpy]
      refine ⟨?_, ?_, ?_, ?_, ?_⟩
      · intro p hp
        rw [List.mem_singleton.1 hp]
        exact ⟨hpx, hpy⟩
      · intro p hp
        rw [List.mem_singleton.1 hp]
        exact not_in_zone_spec hpz
      · intro c r hc
        simp only at hc
        by_cases he : c = (cellIdx p0.y, cellIdx p0.x)
        · rw [if_pos he] at hc
          injection hc with hc
          subst hc
          exact ⟨List.mem_singleton.2 rfl, he⟩
        · rw [if_neg he] at hc
          exact absurd hc (by simp [emptyGrid])
      · intro p hp
        rw [List.mem_singleton.1 hp]
        simp
      · exact List.pairwise_singleton _ _
    obtain ⟨hLIfin, hhalt⟩ := loopSim_final gen zones 22 _ fin
      ⟨by simp, by simp, by simp⟩ hloop
    have hInvFin := loopSim_inv gen zones 22 _ fin hInv0 hloop
    subst hst
    simp only at hhalt ⊢
    refine ⟨hhalt, hLIfin.iter_le, hLIfin.pts_le, ?_, hInvFin⟩
    rw [List.mem_append]
    constructor
    · rintro (hs | hs)
      · exact hLIfin.stop_iff.1 hs
      · simp at hs
    · intro he
      exact Or.inl (hLIfin.stop_iff.2 he)

/-- C6: every placed point lies within the domain: `0 ≤ x < 72` and
`0 ≤ y < 48` (coordinates are naturals in the embedding, so the lower
bounds are inherent); this covers the initial point and every accepted
candidate, for every candidate generator, zone list and seed. -/
theorem c6_bounds_invariant (gen : Gen) (zones : List Zone) (seed : Int) (pts : List Point)
    (h : (run gen zones seed).map SimState.points = some pts) :
    ∀ p ∈ pts, p.x < gridWidth ∧ p.y < gridHeight := by
  rw [Option.map_eq_some'] at h
  obtain ⟨st, hrun, hpts⟩ := h
  subst hpts
  exact (run_shape gen zones seed st hrun).2.2.2.2.bounds

/-- C7: every placed point lies outside every exclusion zone: its
distance to each zone centre is at least the zone radius, stated on
squared distances (`d ≥ r` iff `d² ≥ r²` for nonnegative reals);
rejection required distance strictly below the radius. -/
theorem c7_exclusion_invariant (gen : Gen) (zones : List Zone) (seed : Int) (pts : List Point)
    (h : (run gen zones seed).map SimState.points = some pts) :
    ∀ p ∈ pts, ∀ z ∈ zones, (z.radius : Int) ^ 2 ≤ zoneD2 p z := by
  rw [Option.map_eq_some'] at h
  obtain ⟨st, hrun, hpts⟩ := h
  subst hpts
  exact (run_shape gen zones seed st hrun).2.2.2.2.zonesOK

/-- C2: any two distinct points of the final sequence whose grid cells
lie within the 5×5 search window of each other (cells never change, so
this is the insertion-time relation) are at Euclidean distance at least
`minDistance`, stated on squared distances; distance exactly
`minDistance` is allowed since rejection required a strict
inequality. -/
theorem c2_distance_invariant (gen : Gen) (zones : List Zone) (seed : Int) (pts : List Point)
    (h : (run gen zones seed).map SimState.points = some pts)
    (i j : Nat) (hi : i < pts.length) (hj : j < pts.length) (hne : i ≠ j)
    (hw : windowRel (pts.get ⟨i, hi⟩) (pts.get ⟨j, hj⟩)) :
    (minDistance : Int) ^ 2 ≤ d2 (pts.get ⟨i, hi⟩) (pts.get ⟨j, hj⟩) := by
  rw [Option.map_eq_some'] at h
  obtain ⟨st, hrun, hpts⟩ := h
  subst hpts
  have hpair := (run_shape gen zones seed st hrun).2.2.2.2.pairGood
  rw [List.pairwise_iff_get] at hpair
  rcases Nat.lt_or_ge i j with hij | hij
  · exact hpair ⟨i, hi⟩ ⟨j, hj⟩ hij hw
  · have hji : j < i := by omega
    rw [d2_symm]
    exact hpair ⟨j, hj⟩ ⟨i, hi⟩ hji (windowRel_symm hw)

/-- C4 (amended): the loop hard-stops with the truncation notice after
21 total iterations — successful or failed — not after 20 successful
ones (successes are capped at 14 by the 15-point limit); every run
halts at 15 placed points, an empty active pool, or 21 total
iterations, whichever comes first. -/
theorem c4_truncation (gen : Gen) (zones : List Zone) (seed : Int)
    (act : List Point) (np it : Nat) (stopb : Bool)
    (hact : (run gen zones seed).map SimState.activeList = some act)
    (hnp : (run gen zones seed).map (fun st => st.points.length) = some np)
    (hit : (run gen zones seed).map SimState.iteration = some it)
    (hstop : (run gen zones seed).map
      (fun st => decide (TraceLine.stopping ∈ st.trace)) = some stopb) :
    (act = [] ∨ np = 15 ∨ it = 21) ∧ it ≤ 21 ∧ np ≤ 15 ∧
      (stopb = true ↔ it = 21) := by
  rw [Option.map_eq_some'] at hact hnp hit hstop
  obtain ⟨st, hrun, hact⟩ := hact
  obtain ⟨st2, hrun2, hnp⟩ := hnp
  obtain ⟨st3, hrun3, hit⟩ := hit
  obtain ⟨st4, hrun4, hstop⟩ := hstop
  rw [hrun] at hrun2 hrun3 hrun4
  injection hrun2 with e2
  injection hrun3 with e3
  injection hrun4 with e4
  subst e2
  subst e3
  subst e4
  subst hact
  subst hnp
  subst hit
  subst hstop
  obtain ⟨hhalt, hiter, hpts, hstop, -⟩ := run_shape gen zones seed st hrun
  refine ⟨hhalt, hiter, hpts, ?_⟩
  rw [decide_eq_true_eq]
  exact hstop

theorem Steps.conds {gen : Gen} {zones : List Zone} {st t : SimState}
    (h : Steps gen zones st t) :
    0 < st.activeList.length ∧ st.points.length < 15 ∧ st.iteration ≤ 20 := by
  cases h with
  | found idx c k rng2 rej hactive hpts hiter _ _ => exact ⟨hactive, hpts, hiter⟩
  | failed idx rng2 rej hactive hpts hiter _ _ => exact ⟨hactive, hpts, hiter⟩

/-- A step from a given state is unique: both rules pin every parameter
to the same drawn index and attempt-loop outcome, and the two rules
exclude each other. -/
theorem steps_deterministic {gen : Gen} {zones : List Zone} {st t1 t2 : SimState}
    (h1 : Steps gen zones st t1) (h2 : Steps gen zones st t2) : t1 = t2 := by
  cases h1 with
  | found idx c k rng2 rej hactive hpts hiter hidx hloop =>
    subst hidx
    cases h2 with
    | found idx2 c2 k2 rng22 rej2 _ _ _ hidx2 hloop2 =>
      subst hidx2
      rw [hloop] at hloop2
      simp only [Prod.mk.injEq, Option.some.injEq] at hloop2
      obtain ⟨⟨hc, hk⟩, hrng, -⟩ := hloop2
      rw [hc, hk, hrng]
    | failed idx2 rng22 rej2 _ _ _ hidx2 hloop2 =>
      subst hidx2
      rw [hloop] at hloop2
      simp at hloop2
  | failed idx rng2 rej hactive hpts hiter hidx hloop =>
    subst hidx
    cases h2 with
    | found idx2 c2 k2 rng22 rej2 _ _ _ hidx2 hloop2 =>
      subst hidx2
      rw [hloop] at hloop2
      simp at hloop2
    | failed idx2 rng22 rej2 _ _ _ hidx2 hloop2 =>
      subst hidx2
      rw [hloop] at hloop2
      simp only [Prod.mk.injEq] at hloop2
      obtain ⟨-, hrng, hrej⟩ := hloop2
      rw [hrng, hrej]

theorem exec_unique {gen : Gen} {zones : List Zone} :
    ∀ {st f1 : SimState}, Exec gen zones st f1 →
      ∀ f2, Exec gen zones st f2 → f1 = f2 := by
  intro st f1 h1
  induction h1 with
  | done st hfin =>
    intro f2 h2
    cases h2
    · rfl
    · rename_i st2 hstep hrest
      exact absurd (Steps.conds hstep) hfin
  | more st st2 fin hstep hrest ih =>
    intro f2 h2
    cases h2
    · rename_i hfin
      exact absurd (Steps.conds hstep) hfin
    · rename_i st2b hstep2 hrest2
      have he := steps_deterministic hstep hstep2
      subst he
      exact ih f2 hrest2

/-- C3: the run is a deterministic function of its starting state — in
particular of the seed, with no entropy, time or environment input: any
two complete executions of the main loop from the same state produce
the same trace and the same point sequence. -/
theorem c3_deterministic (gen : Gen) (zones : List Zone) (st f1 f2 : SimState)
    (h1 : Exec gen zones st f1) (h2 : Exec gen zones st f2) :
    f1.trace = f2.trace ∧ f1.points = f2.points := by
  have he := exec_unique h1 f2 h2
  rw [he]
  exact ⟨rfl, rfl⟩

/-! ### Witnesses and the counterexample -/

set_option maxRecDepth 4000 in
/-- Witness for C2 at seed 12345 with `genW`: the two placed points
`(70, 14)` and `(65, 14)` share the window and sit at squared distance
exactly 25. -/
theorem c2_distance_invariant_witness :
    (minDistance : Int) ^ 2 ≤ d2 ⟨70, 14⟩ ⟨65, 14⟩ :=
  c2_distance_invariant genW excludedZones 12345 [⟨70, 14⟩, ⟨65, 14⟩] (by decide)
    0 1 (by decide) (by decide) (by decide) (by decide)

set_option maxRecDepth 4000 in
/-- Witness for C6 at seed 12345 with `genW`. -/
theorem c6_bounds_invariant_witness :
    (⟨70, 14⟩ : Point).x < gridWidth ∧ (⟨70, 14⟩ : Point).y < gridHeight :=
  c6_bounds_invariant genW excludedZones 12345 [⟨70, 14⟩, ⟨65, 14⟩] (by decide)
    ⟨70, 14⟩ (by decide)

set_option maxRecDepth 4000 in
/-- Witness for C7 at seed 12345 with `genW` and the configured zone. -/
theorem c7_exclusion_invariant_witness :
    ((1 : Nat) : Int) ^ 2 ≤ zoneD2 ⟨70, 14⟩ ⟨36, 24, 1⟩ :=
  c7_exclusion_invariant genW excludedZones 12345 [⟨70, 14⟩, ⟨65, 14⟩] (by decide)
    ⟨70, 14⟩ (by decide) ⟨36, 24, 1⟩ (by decide)

set_option maxRecDepth 4000 in
/-- Witness for the amended C4 at seed 12345 with `genW`: that run
halts with an emptied pool after 3 iterations and no truncation
notice. -/
theorem c4_truncation_witness :
    (([] : List Point) = [] ∨ (2 : Nat) = 15 ∨ (3 : Nat) = 21) ∧
      (3 : Nat) ≤ 21 ∧ (2 : Nat) ≤ 15 ∧ (false = true ↔ (3 : Nat) = 21) :=
  c4_truncation genW excludedZones 12345 [] 2 3 false
    (by decide) (by decide) (by decide) (by decide)

set_option maxRecDepth 10000 in
set_option maxHeartbeats 4000000 in
/-- C4 counterexample: with the left-stepping generator and seed 12345
the run emits the truncation notice after 21 total iterations, yet only
11 iterations were successful (12 points incl. the initial one), the
active pool still holds 2 points and the point cap was not reached —
none of the claim's halt conditions («15 placed points, an empty active
pool, or 20 successful iterations») holds at the stop. -/
theorem c4_truncation_counterexample :
    (run genC excludedZones 12345).map SimState.iteration = some 21 ∧
    (run genC excludedZones 12345).map (fun st => st.points.length) = some 12 ∧
    (run genC excludedZones 12345).map (fun st => st.activeList.length) = some 2 ∧
    (run genC excludedZones 12345).map
      (fun st => decide (TraceLine.stopping ∈ st.trace)) = some true := by
  refine ⟨?_, ?_, ?_, ?_⟩ <;> decide

set_option maxRecDepth 10000 in
set_option maxHeartbeats 4000000 in
/-- C5: with a zone of radius 10000 centred at `(36, 24)` covering the
whole 72×48 domain, every one of the 1000 initial draws is rejected:
the search yields no point after exactly 1000 attempts, and the run
produces no trace at all.  The reference script then crashes at line
79 with a `TypeError` (`initial['x']` on `None`) instead of reporting
an explicit failure. -/
theorem c5_exhausted_search :
    (findInitial [⟨36, 24, 10000⟩] (seedInit 12345) 1000).1 = none ∧
    (findInitial [⟨36, 24, 10000⟩] (seedInit 12345) 1000).2.2 = 1000 ∧
    run genZero [⟨36, 24, 10000⟩] 12345 = none := by
  refine ⟨by decide, by decide, ?_⟩
  unfold run
  rcases hfi : findInitial [⟨36, 24, 10000⟩] (seedInit 12345) 1000 with ⟨res, rng0, k⟩
  have hres : res = none := by
    have h1 : (findInitial [⟨36, 24, 10000⟩] (seedInit 12345) 1000).1 = none := by decide
    rw [hfi] at h1
    exact h1
  subst hres
  rfl

/-- C8: whenever a step fails — the attempt loop returns no accepted
candidate after its full budget of 50 tries starting from zeroed
counters — the three printed rejection counters sum to exactly
`maxAttempts`. -/
theorem c8_failed_step_counts (gen : Gen) (zones : List Zone) (grid : Grid) (point : Point)
    (rng rng2 : Nat) (rej2 : Rejections)
    (h : attemptLoop gen zones grid point rng maxAttempts ⟨0, 0, 0⟩ = (none, rng2, rej2)) :
    rej2.bounds + rej2.excluded + rej2.nearby = maxAttempts := by
  have hc := attemptLoop_counts gen zones grid point maxAttempts rng ⟨0, 0, 0⟩ rng2 rej2 h
  simpa using hc

set_option maxRecDepth 4000 in
/-- Witness for C8: an always-out-of-bounds generator fails a full step
with counters `(50, 0, 0)`. -/
theorem c8_failed_step_counts_witness :
    (⟨50, 0, 0⟩ : Rejections).bounds + (⟨50, 0, 0⟩ : Rejections).excluded
      + (⟨50, 0, 0⟩ : Rejections).nearby = maxAttempts :=
  c8_failed_step_counts genOut [] emptyGrid ⟨0, 0⟩ 12345 2767967213 ⟨50, 0, 0⟩ (by decide)

/-- Witness for C9 at a concrete state with an empty pool. -/
theorem c9_loop_terminates_witness :
    ∃ fin, loopSim genZero excludedZones 22 stIdle = some fin ∧
      fin.iteration ≤ max stIdle.iteration 21 :=
  (c9_loop_terminates genZero excludedZones 22 stIdle (by decide)).1

set_option maxRecDepth 4000 in
/-- Witness for C3: a concrete one-step execution (the single active
point fails all 50 attempts and is evicted) run against itself. -/
theorem c3_deterministic_witness :
    (rejectState stW 0 3967697356 ⟨50, 0, 0⟩).trace
        = (rejectState stW 0 3967697356 ⟨50, 0, 0⟩).trace ∧
      (rejectState stW 0 3967697356 ⟨50, 0, 0⟩).points
        = (rejectState stW 0 3967697356 ⟨50, 0, 0⟩).points :=
  c3_deterministic genOut excludedZones stW _ _
    (Exec.more stW _ _
      (Steps.failed stW 0 3967697356 ⟨50, 0, 0⟩ (by decide) (by decide) (by decide)
        (by decide) (by decide))
      (Exec.done _ (fun h => absurd h.1 (by decide))))
    (Exec.more stW _ _
      (Steps.failed stW 0 3967697356 ⟨50, 0, 0⟩ (by decide) (by decide) (by decide)
        (by decide) (by decide))
      (Exec.done _ (fun h => absurd h.1 (by decide))))

end FullSim
